import Mathlib

/-!
Verification of the tagfmt orchestrator (src/gofmt.go) and of the tag grammar,
doctor pass, and printing contract described by its specification.

The embedding models processFile as a pure function from the flag configuration
and the results of its external collaborators (regex compilation, the Go parser,
the passes, the printer, the diff subprocess) to an Except result together with
a trace of observable events.  Components of the repository that are not part of
gofmt.go (the tag grammar, the doctor pass, the printer frame condition) are
modelled from the specification; their doc comments say so explicitly.
-/

namespace Tagfmt

/-- The four tag-processing passes that processFile can place in its executor
list (gofmt.go lines 164-202). -/
inductive Pass
  | doctor
  | fill
  | sort
  | align
deriving DecidableEq

/-- Observable events of one processFile run: a pass running its Scan or
Execute step, the list-mode filename print, the write-mode overwrite of the
target file, an invocation of the external diff subprocess, and a write of
transformed output (or diff data) to the output writer. -/
inductive Ev
  | scan (p : Pass)
  | exec (p : Pass)
  | listOut
  | writeTarget
  | diffInvoke
  | writeOut
deriving DecidableEq

/-- Flag configuration read by processFile (gofmt.go lines 32-50). -/
structure Config where
  pattern : String
  inversePattern : String
  structPattern : String
  inverseStructPattern : String
  fill : String
  tagSort : Bool
  tagSortWeight : String
  tagSortOrder : String
  align : Bool
  list : Bool
  write : Bool
  doDiff : Bool

/-- Replace only the positive field-name pattern flag of a configuration. -/
def setPattern (c : Config) (p : String) : Config :=
  ⟨p, c.inversePattern, c.structPattern, c.inverseStructPattern, c.fill, c.tagSort,
   c.tagSortWeight, c.tagSortOrder, c.align, c.list, c.write, c.doDiff⟩

/-- Replace only the positive struct-name pattern flag of a configuration. -/
def setStructPattern (c : Config) (p : String) : Config :=
  ⟨c.pattern, c.inversePattern, p, c.inverseStructPattern, c.fill, c.tagSort,
   c.tagSortWeight, c.tagSortOrder, c.align, c.list, c.write, c.doDiff⟩

/-- Results of the external collaborators of processFile: regex compilation
(regexp.Compile succeeds or not), newTagFill accepting or rejecting the fill
rule string, the Go parser, each pass's Scan and Execute outcome, the printer,
the write-mode file write, and the diff subprocess. -/
structure Oracles where
  regex : String → Option Unit
  fillAccept : String → Except String Unit
  parseOk : Bool
  scanErr : Pass → Option String
  execErr : Pass → Option String
  printOk : Bool
  res : String
  writeRes : Except String Unit
  diffRes : Except String Unit

/-- Boolean error test for Except results. -/
def isErrB {ε α : Type} : Except ε α → Bool
  | .error _ => true
  | .ok _ => false

/-- Whitespace characters stripped by strings.TrimSpace (ASCII range). -/
def isSpaceChar (c : Char) : Bool :=
  c = ' ' || c = '\t' || c = '\n' || c = '\r' || c = '\x0b' || c = '\x0c'

/-- Model of strings.TrimSpace. -/
def goTrim (s : String) : String :=
  String.mk (((s.data.dropWhile isSpaceChar).reverse.dropWhile isSpaceChar).reverse)

/-- Model of strconv.Atoi: an optional sign followed by one or more ASCII
digits; anything else is rejected. -/
def goAtoi (s : String) : Option Int :=
  let core : List Char → Option Nat := fun ds =>
    if ds = [] then none
    else if ds.all Char.isDigit then
      some (ds.foldl (fun n c => n * 10 + (c.toNat - 48)) 0)
    else none
  match s.data with
  | '+' :: ds => (core ds).map Int.ofNat
  | '-' :: ds => (core ds).map (fun n => -(n : Int))
  | ds => (core ds).map Int.ofNat

/-- Helper for goSplit: accumulate the current chunk in reverse. -/
def goSplitAux (sep : Char) : List Char → List Char → List String
  | [], acc => [String.mk acc.reverse]
  | c :: rest, acc =>
    if c = sep then String.mk acc.reverse :: goSplitAux sep rest []
    else goSplitAux sep rest (c :: acc)

/-- Model of strings.Split for a one-character separator, which is how
processFile uses it (the separators are the vertical bar and the equals
sign). -/
def goSplit (sep : Char) (s : String) : List String :=
  goSplitAux sep s.data []

/-- One segment of the sort-weight flag (gofmt.go lines 182-197): trimmed;
blank segments are skipped; otherwise the segment must split on the equals
sign into exactly a key and an integer value. -/
def weightSeg (seg : String) : Except String (Option (String × Int)) :=
  let t := goTrim seg
  if t = "" then .ok none
  else
    match goSplit '=' t with
    | [k, v] =>
      match goAtoi (goTrim v) with
      | some n => .ok (some (goTrim k, n))
      | none => .error "tagSortWeight format error please check sw arg: Atoi"
    | _ => .error "tagSortWeight format error please check sw arg"

/-- Weight-table parsing performed by processFile when sorting is enabled
(gofmt.go lines 181-197): split the flag on the vertical bar and process each
segment, failing on the first malformed one. -/
def parseWeights (sw : String) : Except String (List (String × Int)) :=
  (goSplit '|' sw).foldlM (fun acc seg =>
    match weightSeg seg with
    | .error e => .error e
    | .ok none => .ok acc
    | .ok (some kv) => .ok (acc ++ [kv])) []

/-- Field-name pattern actually used by processFile (gofmt.go lines 130-140):
the inverse pattern when it is non-empty, else the positive pattern. -/
def chosenFieldPattern (c : Config) : String × Bool :=
  if c.inversePattern ≠ "" then (c.inversePattern, true) else (c.pattern, false)

/-- Struct-name pattern actually used by processFile (gofmt.go lines 142-152):
the inverse pattern when it is non-empty, else the positive pattern. -/
def chosenStructPattern (c : Config) : String × Bool :=
  if c.inverseStructPattern ≠ "" then (c.inverseStructPattern, true)
  else (c.structPattern, false)

/-- Field filter built by selectInit (gofmt.go lines 444-460) from a compiled
regex matcher and the inverse flag. -/
def mkFieldFilter (selRule : String → Bool) (inverse : Bool) : String → Bool :=
  if inverse then fun s => !selRule s else fun s => selRule s

/-- Struct filter built by structSelectInit (gofmt.go lines 464-480) from a
compiled regex matcher and the inverse flag. -/
def mkStructFilter (selRule : String → Bool) (inverse : Bool) : String → Bool :=
  if inverse then fun s => !selRule s else fun s => selRule s

/-- Model of selectInit (gofmt.go lines 444-460): compile the expression and
install the filter; compilation failure yields none. -/
def selectInitModel (compile : String → Option (String → Bool))
    (expr : String) (inverse : Bool) : Option (String → Bool) :=
  match compile expr with
  | none => none
  | some selRule => some (mkFieldFilter selRule inverse)

/-- Model of structSelectInit (gofmt.go lines 464-480). -/
def structSelectInitModel (compile : String → Option (String → Bool))
    (expr : String) (inverse : Bool) : Option (String → Bool) :=
  match compile expr with
  | none => none
  | some selRule => some (mkStructFilter selRule inverse)

/-- Executor list assembled by processFile (gofmt.go lines 164-202): the
doctor pass unconditionally first, then the fill pass when the fill flag is
non-empty and newTagFill accepts it, then the sort pass when sorting is
enabled and the weight flag parses, then the align pass when alignment is
enabled. -/
def buildExecutor (c : Config) (o : Oracles) : Except String (List Pass) :=
  let e1 : List Pass := [Pass.doctor]
  let r2 : Except String (List Pass) :=
    if c.fill = "" then .ok e1
    else
      match o.fillAccept c.fill with
      | .error e => .error e
      | .ok _ => .ok (e1 ++ [Pass.fill])
  match r2 with
  | .error e => .error e
  | .ok e2 =>
    let r3 : Except String (List Pass) :=
      if c.tagSort then
        match parseWeights c.tagSortWeight with
        | .error e => .error e
        | .ok _ => .ok (e2 ++ [Pass.sort])
      else .ok e2
    match r3 with
    | .error e => .error e
    | .ok e3 => .ok (if c.align then e3 ++ [Pass.align] else e3)

/-- Scan loop of processFile (gofmt.go lines 203-208): run the Scan step of
every executor in order, stopping at the first error. -/
def runScans (o : Oracles) : List Pass → Except String Unit × List Ev
  | [] => (.ok (), [])
  | p :: ps =>
    match o.scanErr p with
    | some e => (.error e, [Ev.scan p])
    | none =>
      let (r, t) := runScans o ps
      (r, Ev.scan p :: t)

/-- Execute loop of processFile (gofmt.go lines 209-214): run the Execute step
of every executor in order, stopping at the first error. -/
def runExecs (o : Oracles) : List Pass → Except String Unit × List Ev
  | [] => (.ok (), [])
  | p :: ps =>
    match o.execErr p with
    | some e => (.error e, [Ev.exec p])
    | none =>
      let (r, t) := runExecs o ps
      (r, Ev.exec p :: t)

/-- Output phase of processFile (gofmt.go lines 225-258): when the printed
result differs from the source, list mode prints the filename, write mode
rewrites the target, diff mode invokes the external diff and on failure
returns a computing-diff error without writing the data; when none of the
three modes is set the result bytes are written to the output writer. -/
def outputPhase (c : Config) (o : Oracles) (src : String) :
    Except String Unit × List Ev :=
  if src = o.res then
    if !c.list && !c.write && !c.doDiff then (.ok (), [Ev.writeOut])
    else (.ok (), [])
  else
    let t1 : List Ev := if c.list then [Ev.listOut] else []
    if c.write && isErrB o.writeRes then (o.writeRes, t1 ++ [Ev.writeTarget])
    else
      let t2 : List Ev := if c.write then [Ev.writeTarget] else []
      if c.doDiff then
        match o.diffRes with
        | .error e => (.error ("computing diff: " ++ e), t1 ++ t2 ++ [Ev.diffInvoke])
        | .ok _ =>
          (.ok (), t1 ++ t2 ++ [Ev.diffInvoke, Ev.writeOut])
      else
        if !c.list && !c.write then (.ok (), t1 ++ t2 ++ [Ev.writeOut])
        else (.ok (), t1 ++ t2)

/-- Model of processFile (gofmt.go lines 115-261): initialise the field and
struct selectors, parse the file, build the executor list, run all Scans then
all Executes, print the tree and run the output phase.  The result pairs the
returned error status with the trace of observable events. -/
def processFileModel (c : Config) (o : Oracles) (src : String) :
    Except String Unit × List Ev :=
  if (o.regex (chosenFieldPattern c).1).isNone then
    (.error "field pattern does not compile", [])
  else if (o.regex (chosenStructPattern c).1).isNone then
    (.error "struct pattern does not compile", [])
  else if o.parseOk = false then (.error "parse error", [])
  else
    match buildExecutor c o with
    | .error e => (.error e, [])
    | .ok ps =>
      let s := runScans o ps
      if isErrB s.1 then s
      else
        let x := runExecs o ps
        if isErrB x.1 then (x.1, s.2 ++ x.2)
        else if o.printOk = false then (.error "print error", s.2 ++ x.2)
        else
          let op := outputPhase c o src
          (op.1, s.2 ++ x.2 ++ op.2)

/-- An event is a pass event when it is a Scan or an Execute step. -/
def isPassEv : Ev → Bool
  | .scan _ => true
  | .exec _ => true
  | _ => false

/-- Per-field data errors of the tag grammar (spec section 4.1 and the error
definitions at gofmt.go lines 80-84). -/
inductive TagErr
  | unclosedQuote
  | unclosedBracket
  | invalidTag
deriving DecidableEq

/-- A parsed tag entry: the key characters and the value characters between
the double quotes, escape sequences kept verbatim. -/
abbrev EntryT := List Char × List Char

/-- Characters allowed in a tag key: any character other than the colon, the
double quote and the space. -/
def keyChar (c : Char) : Bool :=
  !(c = ':' || c = '"' || c = ' ')

/-- Modelled from the spec: the value scanner of the tag grammar (spec section
4.1; the grammar itself is not under src/).  After the opening double quote it
consumes characters, keeping backslash escapes verbatim, until the closing
unescaped double quote; reaching the end of input first is an unclosed-quote
error. -/
def parseVal : List Char → Except TagErr (List Char × List Char)
  | [] => .error .unclosedQuote
  | c :: rest =>
    if c = '"' then .ok ([], rest)
    else if c = '\\' then
      match rest with
      | [] => .error .unclosedQuote
      | c2 :: rest2 =>
        match parseVal rest2 with
        | .ok (v, r) => .ok ('\\' :: c2 :: v, r)
        | .error e => .error e
    else
      match parseVal rest with
      | .ok (v, r) => .ok (c :: v, r)
      | .error e => .error e

/-- Lexical bracket-balance check on a value (spec sections 4.1 and 9): a
value with more opening than closing square brackets is an unclosed bracket. -/
def bracketsClosed (v : List Char) : Bool :=
  v.count '[' ≤ v.count ']'

/-- Modelled from the spec: one entry of the tag grammar (spec section 4.1;
the grammar is not under src/).  A non-empty key runs up to the colon, which
must be followed by a double-quoted value; a missing key or a malformed
key-value separator is an invalid tag. -/
def parseEntry (l : List Char) : Except TagErr (EntryT × List Char) :=
  match l.takeWhile keyChar, l.dropWhile keyChar with
  | [], _ => .error .invalidTag
  | k1 :: ks, ':' :: '"' :: rest2 =>
    match parseVal rest2 with
    | .error e => .error e
    | .ok (v, r) =>
      if bracketsClosed v then .ok ((k1 :: ks, v), r) else .error .unclosedBracket
  | _ :: _, _ => .error .invalidTag

/-- Modelled from the spec: the entry-list parser of the tag grammar (spec
section 4.1; the grammar is not under src/), with explicit fuel.  Entries are
separated by exactly one space and a trailing space is malformed.  The fuel is
always instantiated with the length of the input, which suffices because every
entry consumes at least one character. -/
def parseEntriesF : Nat → List Char → Except TagErr (List EntryT)
  | _, [] => .ok []
  | 0, _ :: _ => .error .invalidTag
  | n + 1, c :: l =>
    match parseEntry (c :: l) with
    | .error e => .error e
    | .ok (e, r) =>
      match r with
      | [] => .ok [e]
      | ' ' :: r2 =>
        match r2 with
        | [] => .error .invalidTag
        | _ :: _ =>
          match parseEntriesF n r2 with
          | .error e2 => .error e2
          | .ok es => .ok (e :: es)
      | _ => .error .invalidTag

/-- Modelled from the spec: parse of a raw tag literal (spec section 4.1; the
grammar is not under src/). -/
def parseTag (t : String) : Except TagErr (List EntryT) :=
  parseEntriesF t.data.length t.data

/-- Serialization of one entry: key, colon, and the double-quoted value. -/
def serializeEntry (e : EntryT) : List Char :=
  e.1 ++ ':' :: '"' :: e.2 ++ ['"']

/-- Modelled from the spec: serialization of an entry list (spec section 4.1),
re-emitting exactly one space between entries and no trailing space. -/
def serializeEntries : List EntryT → List Char
  | [] => []
  | [e] => serializeEntry e
  | e :: e2 :: es => serializeEntry e ++ ' ' :: serializeEntries (e2 :: es)

/-- Serialization of an entry list to a tag string. -/
def serializeTag (es : List EntryT) : String :=
  String.mk (serializeEntries es)

/-- One field of a struct as the doctor pass sees it: a name and a raw tag
literal. -/
structure GoField where
  name : String
  tag : String
deriving DecidableEq

/-- Output of the doctor pass's Scan step: pending edits (field name, repaired
tag text) and per-field diagnostics. -/
structure DoctorOut where
  edits : List (String × String)
  diags : List (String × TagErr)
deriving DecidableEq

/-- Modelled from the spec: the Scan step of the doctor pass (spec section
4.3; tagDoctor is not under src/).  Each field is handled independently: a tag
with an unclosed quote or bracket is repaired by appending the missing
terminator, an invalid tag is reported as a diagnostic, and in every case the
scan continues with the remaining fields. -/
def doctorScan : List GoField → DoctorOut
  | [] => ⟨[], []⟩
  | f :: fs =>
    match parseTag f.tag with
    | .ok _ => doctorScan fs
    | .error .unclosedQuote =>
      ⟨(f.name, f.tag ++ "\"") :: (doctorScan fs).edits, (doctorScan fs).diags⟩
    | .error .unclosedBracket =>
      ⟨(f.name, f.tag ++ "]") :: (doctorScan fs).edits, (doctorScan fs).diags⟩
    | .error .invalidTag =>
      ⟨(doctorScan fs).edits, (f.name, TagErr.invalidTag) :: (doctorScan fs).diags⟩

/-- A segment of a source file: either a span of bytes outside every tag
literal, or one field's tag literal identified by a stable field identity. -/
inductive Seg
  | text (s : String)
  | tag (id : Nat) (lit : String)
deriving DecidableEq

/-- Modelled from the spec: application of one pending edit by field identity
(spec sections 3 and 9; the tree and printer are external collaborators not
under src/).  Only the tag segment with the matching identity changes. -/
def applyEdit (segs : List Seg) (e : Nat × String) : List Seg :=
  segs.map fun seg =>
    match seg with
    | .text s => .text s
    | .tag i lit => if i = e.1 then .tag i e.2 else .tag i lit

/-- Application of a list of pending edits in order. -/
def applyEdits (segs : List Seg) (es : List (Nat × String)) : List Seg :=
  es.foldl applyEdit segs

/-- Modelled from the spec: the printing contract (spec section 6) — the
output is the concatenation of all segments, text segments verbatim and tag
segments with their current literal text. -/
def render : List Seg → String
  | [] => ""
  | .text s :: rest => s ++ render rest
  | .tag _ lit :: rest => lit ++ render rest

/-- The text content of a segment, none for tag segments. -/
def textOf : Seg → Option String
  | .text s => some s
  | .tag _ _ => none

/-- File-system view of write mode: the content of the target file and the
content of the backup file when one exists. -/
structure FS where
  target : String
  backup : Option String
deriving DecidableEq

/-- Observable events of the write-mode branch. -/
inductive WEv
  | backupCreate
  | overwrite
  | renameBack
  | removeBackup
deriving DecidableEq

/-- Write-mode branch of processFile (gofmt.go lines 230-244): create a
backup holding the original content, overwrite the target with the formatted
result, then remove the backup; when the overwrite fails the backup is renamed
back over the target and the error is returned; when backup creation fails
nothing is touched. -/
def writeMode (res : String) (backupOk writeOk removeOk : Bool) (fs : FS) :
    Except String Unit × FS × List WEv :=
  if backupOk = false then (.error "backup failed", fs, [])
  else
    let fs1 : FS := ⟨fs.target, some fs.target⟩
    if writeOk = false then
      (.error "write failed", ⟨fs1.backup.getD fs1.target, none⟩,
        [WEv.backupCreate, WEv.overwrite, WEv.renameBack])
    else
      let fs2 : FS := ⟨res, fs1.backup⟩
      if removeOk then
        (.ok (), ⟨fs2.target, none⟩, [WEv.backupCreate, WEv.overwrite, WEv.removeBackup])
      else
        (.error "remove failed", fs2, [WEv.backupCreate, WEv.overwrite, WEv.removeBackup])

/-! Concrete instances used by witnesses and counterexamples. -/

/-- Oracle where every external collaborator succeeds. -/
def oAllOk : Oracles :=
  ⟨fun _ => some (), fun _ => .ok (), true, fun _ => none, fun _ => none, true,
   "res", .ok (), .ok ()⟩

/-- Configuration enabling all four passes (non-empty fill rule, sorting and
alignment on). -/
def cAllPasses : Config :=
  ⟨".*", "", ".*", "", "json=lower", true, "", "", true, false, false, false⟩

/-- Configuration enabling no optional pass. -/
def cNoPasses : Config :=
  ⟨".*", "", ".*", "", "", false, "", "", false, false, false, false⟩

/-- Configuration with sorting disabled but a malformed sort-weight flag. -/
def cBadWeight : Config :=
  ⟨".*", "", ".*", "", "", false, "json=x", "", true, false, false, false⟩

/-- Configuration with sorting enabled and a malformed sort-weight flag. -/
def cBadWeightSortOn : Config :=
  ⟨".*", "", ".*", "", "", true, "json=x", "", true, false, false, false⟩

/-- Configuration with non-empty inverse field and struct patterns. -/
def cInverse : Config :=
  ⟨".*", "^A", ".*", "^B", "", false, "", "", true, false, false, false⟩

/-- Sample compiled matcher standing for a compiled regular expression. -/
def sampleRule : String → Bool := fun t => t.length == 1

/-- Sample compile function that always succeeds with sampleRule. -/
def sampleCompile : String → Option (String → Bool) := fun _ => some sampleRule

/-! Basic lemmas about the run model. -/

/-- An Except value that tests as an error is an error. -/
theorem exists_error_of_isErrB {ε α : Type} (r : Except ε α) (h : isErrB r = true) :
    ∃ e, r = .error e := by
  cases r with
  | error e => exact ⟨e, rfl⟩
  | ok a => simp [isErrB] at h

/-- When no pass's Scan fails, the scan loop succeeds and its trace is the
Scan events of the passes in declared order. -/
theorem runScans_ok (o : Oracles) (h : ∀ p, o.scanErr p = none) :
    ∀ ps, runScans o ps = (.ok (), ps.map Ev.scan) := by
  intro ps
  induction ps with
  | nil => rfl
  | cons p ps ih => simp [runScans, h p, ih]

/-- When no pass's Execute fails, the execute loop succeeds and its trace is
the Execute events of the passes in declared order. -/
theorem runExecs_ok (o : Oracles) (h : ∀ p, o.execErr p = none) :
    ∀ ps, runExecs o ps = (.ok (), ps.map Ev.exec) := by
  intro ps
  induction ps with
  | nil => rfl
  | cons p ps ih => simp [runExecs, h p, ih]

/-- Scan events are pass events. -/
theorem filter_scan_map (ps : List Pass) :
    (ps.map Ev.scan).filter isPassEv = ps.map Ev.scan := by
  induction ps with
  | nil => rfl
  | cons p ps ih => simp [isPassEv, ih]

/-- Execute events are pass events. -/
theorem filter_exec_map (ps : List Pass) :
    (ps.map Ev.exec).filter isPassEv = ps.map Ev.exec := by
  induction ps with
  | nil => rfl
  | cons p ps ih => simp [isPassEv, ih]

/-- Non-pass events do not occur among the Scan events of a pass list. -/
theorem not_mem_scan_map (e : Ev) (he : isPassEv e = false) (ps : List Pass) :
    e ∉ ps.map Ev.scan := by
  intro hmem
  obtain ⟨p, _, hp⟩ := List.mem_map.mp hmem
  subst hp
  simp [isPassEv] at he

/-- Non-pass events do not occur among the Execute events of a pass list. -/
theorem not_mem_exec_map (e : Ev) (he : isPassEv e = false) (ps : List Pass) :
    e ∉ ps.map Ev.exec := by
  intro hmem
  obtain ⟨p, _, hp⟩ := List.mem_map.mp hmem
  subst hp
  simp [isPassEv] at he

/-- The output phase emits no Scan or Execute event. -/
theorem outputPhase_filter (c : Config) (o : Oracles) (src : String) :
    (outputPhase c o src).2.filter isPassEv = [] := by
  unfold outputPhase
  repeat' split
  all_goals simp [isPassEv]

/-! Claim C8. -/

/-- C8 (confirmed): for every pattern that compiles to a matcher, the field
filter installed by selectInit with the inverse flag answers, on every name,
the exact boolean negation of the filter installed from the same pattern
without the inverse flag; the same complement relation holds for the struct
filter installed by structSelectInit. -/
theorem inverse_filter_complement (compile : String → Option (String → Bool))
    (p : String) (rule : String → Bool) (s : String)
    (h : compile p = some rule) :
    (selectInitModel compile p true).map (fun f => f s) =
      (selectInitModel compile p false).map (fun f => !(f s)) ∧
    (structSelectInitModel compile p true).map (fun g => g s) =
      (structSelectInitModel compile p false).map (fun g => !(g s)) := by
  constructor <;> simp [selectInitModel, structSelectInitModel, h,
    mkFieldFilter, mkStructFilter]

/-- Witness for C8 at a concrete compile function, pattern and name. -/
theorem inverse_filter_complement_witness :
    (selectInitModel sampleCompile ".*" true).map (fun f => f "ab") =
      (selectInitModel sampleCompile ".*" false).map (fun f => !(f "ab")) ∧
    (structSelectInitModel sampleCompile ".*" true).map (fun g => g "ab") =
      (structSelectInitModel sampleCompile ".*" false).map (fun g => !(g "ab")) :=
  inverse_filter_complement sampleCompile ".*" sampleRule "ab" rfl

/-! Claim C9. -/

/-- Replacing the positive field pattern does not change the pattern chosen
when the inverse pattern is non-empty. -/
theorem chosenFieldPattern_setPattern (c : Config) (p : String)
    (h : c.inversePattern ≠ "") :
    chosenFieldPattern (setPattern c p) = (c.inversePattern, true) := by
  simp [chosenFieldPattern, setPattern, h]

/-- The model reads the configuration only through the chosen patterns, the
executor construction and the output phase. -/
theorem processFileModel_congr (c c2 : Config) (o : Oracles) (src : String)
    (h1 : chosenFieldPattern c = chosenFieldPattern c2)
    (h2 : chosenStructPattern c = chosenStructPattern c2)
    (h3 : buildExecutor c o = buildExecutor c2 o)
    (h4 : outputPhase c o src = outputPhase c2 o src) :
    processFileModel c o src = processFileModel c2 o src := by
  unfold processFileModel
  rw [h1, h2, h3, h4]

/-- C9 (confirmed): whenever the inverse field-name pattern flag is non-empty
the positive field-name pattern is ignored entirely — the chosen pattern is
the inverse one with inverted matching, and the whole run result is
independent of the positive pattern — and likewise, independently, whenever
the inverse struct-name pattern flag is non-empty the inverse struct pattern
fully supersedes the positive struct pattern. -/
theorem inverse_pattern_supersedes (c : Config) (o : Oracles)
    (src p1 p2 q1 q2 : String) :
    (c.inversePattern ≠ "" →
      chosenFieldPattern c = (c.inversePattern, true) ∧
      processFileModel (setPattern c p1) o src =
        processFileModel (setPattern c p2) o src) ∧
    (c.inverseStructPattern ≠ "" →
      chosenStructPattern c = (c.inverseStructPattern, true) ∧
      processFileModel (setStructPattern c q1) o src =
        processFileModel (setStructPattern c q2) o src) := by
  constructor
  · intro h
    refine ⟨by simp [chosenFieldPattern, h], ?_⟩
    refine processFileModel_congr _ _ o src ?_ rfl rfl rfl
    rw [chosenFieldPattern_setPattern c p1 h, chosenFieldPattern_setPattern c p2 h]
  · intro h2
    refine ⟨by simp [chosenStructPattern, h2], ?_⟩
    refine processFileModel_congr _ _ o src rfl ?_ rfl rfl
    simp [chosenStructPattern, setStructPattern, h2]

/-- Witness for C9 at a concrete configuration with both inverse patterns
non-empty, discharging each clause's hypothesis. -/
theorem inverse_pattern_supersedes_witness :
    (chosenFieldPattern cInverse = (cInverse.inversePattern, true) ∧
     processFileModel (setPattern cInverse "x") oAllOk "s" =
       processFileModel (setPattern cInverse "y") oAllOk "s") ∧
    (chosenStructPattern cInverse = (cInverse.inverseStructPattern, true) ∧
     processFileModel (setStructPattern cInverse "u") oAllOk "s" =
       processFileModel (setStructPattern cInverse "v") oAllOk "s") :=
  ⟨(inverse_pattern_supersedes cInverse oAllOk "s" "x" "y" "u" "v").1 (by decide),
   (inverse_pattern_supersedes cInverse oAllOk "s" "x" "y" "u" "v").2 (by decide)⟩

/-! Claim C2. -/

/-- C2 (confirmed): every executor list built by processFile has the doctor
pass first unconditionally, then the fill pass exactly when the fill rule
string is non-empty, then the sort pass exactly when sorting is enabled, then
the align pass exactly when alignment is enabled, in that relative order. -/
theorem executor_order (c : Config) (o : Oracles) (ps : List Pass)
    (h : buildExecutor c o = .ok ps) :
    ps = Pass.doctor :: ((if c.fill = "" then [] else [Pass.fill]) ++
      (if c.tagSort then [Pass.sort] else []) ++
      (if c.align then [Pass.align] else [])) := by
  unfold buildExecutor at h
  by_cases hf : c.fill = "" <;>
    simp only [hf, if_true, if_false, reduceIte] at h
  · by_cases hs : c.tagSort <;>
      simp only [hs, if_true, if_false, reduceIte] at h
    · cases hw : parseWeights c.tagSortWeight with
      | error e => rw [hw] at h; cases h
      | ok w =>
        rw [hw] at h
        by_cases ha : c.align <;> simp_all
    · by_cases ha : c.align <;> simp_all
  · cases hfa : o.fillAccept c.fill with
    | error e => rw [hfa] at h; cases h
    | ok u =>
      rw [hfa] at h
      by_cases hs : c.tagSort <;>
        simp only [hs, if_true, if_false, reduceIte] at h
      · cases hw : parseWeights c.tagSortWeight with
        | error e => rw [hw] at h; cases h
        | ok w =>
          rw [hw] at h
          by_cases ha : c.align <;> simp_all
      · by_cases ha : c.align <;> simp_all

/-- Witness for C2: with every optional pass disabled the executor list is
the doctor pass alone. -/
theorem executor_order_witness :
    [Pass.doctor] = Pass.doctor :: ((if cNoPasses.fill = "" then [] else [Pass.fill]) ++
      (if cNoPasses.tagSort then [Pass.sort] else []) ++
      (if cNoPasses.align then [Pass.align] else [])) :=
  executor_order cNoPasses oAllOk [Pass.doctor] rfl

/-! Claim C10. -/

/-- C10 (confirmed): in write mode with a successfully created backup, a
failed overwrite leaves the target holding the original content (the backup is
renamed back over it) and the error is returned, while a successful overwrite
followed by a successful removal leaves the target holding the result and no
backup file; in both traces the backup creation precedes the overwrite. -/
theorem write_backup_restore (res : String) (removeOk : Bool) (fs : FS) :
    writeMode res true false removeOk fs =
      (.error "write failed", ⟨fs.target, none⟩,
        [WEv.backupCreate, WEv.overwrite, WEv.renameBack]) ∧
    (removeOk = true →
      writeMode res true true removeOk fs =
        (.ok (), ⟨res, none⟩,
          [WEv.backupCreate, WEv.overwrite, WEv.removeBackup])) := by
  constructor
  · simp [writeMode]
  · intro h
    subst h
    simp [writeMode]

/-- Witness for C10 at concrete contents. -/
theorem write_backup_restore_witness :
    writeMode "new" true false true ⟨"orig", none⟩ =
      (.error "write failed", ⟨"orig", none⟩,
        [WEv.backupCreate, WEv.overwrite, WEv.renameBack]) ∧
    writeMode "new" true true true ⟨"orig", none⟩ =
      (.ok (), ⟨"new", none⟩,
        [WEv.backupCreate, WEv.overwrite, WEv.removeBackup]) :=
  ⟨(write_backup_restore "new" true ⟨"orig", none⟩).1,
   (write_backup_restore "new" true ⟨"orig", none⟩).2 rfl⟩

/-! Claim C1. -/

/-- Counterexample for C1 as stated: with all four passes enabled, the pass
events of the run are all Scans in declared order followed by all Executes in
declared order, which differs from the per-pass interleaved sequence
Doctor.Scan, Doctor.Execute, Fill.Scan, Fill.Execute, Sort.Scan, Sort.Execute,
Align.Scan, Align.Execute that the claim asserts. -/
theorem interleaved_sequence_refuted :
    (processFileModel cAllPasses oAllOk "x").2.filter isPassEv =
      [Ev.scan Pass.doctor, Ev.scan Pass.fill, Ev.scan Pass.sort, Ev.scan Pass.align,
       Ev.exec Pass.doctor, Ev.exec Pass.fill, Ev.exec Pass.sort, Ev.exec Pass.align] ∧
    ([Ev.scan Pass.doctor, Ev.scan Pass.fill, Ev.scan Pass.sort, Ev.scan Pass.align,
      Ev.exec Pass.doctor, Ev.exec Pass.fill, Ev.exec Pass.sort, Ev.exec Pass.align] ≠
     [Ev.scan Pass.doctor, Ev.exec Pass.doctor, Ev.scan Pass.fill, Ev.exec Pass.fill,
      Ev.scan Pass.sort, Ev.exec Pass.sort, Ev.scan Pass.align, Ev.exec Pass.align]) := by
  constructor
  · rfl
  · decide

/-- C1 (corrected): on a successful run the pass-event sequence of processFile
is globally batched — the Scan steps of all enabled passes run first in
declared order, then the Execute steps of all enabled passes in the same
order, so every Scan (in particular each pass's own) completes before any
Execute begins. -/
theorem scans_batched_before_execs (c : Config) (o : Oracles) (src : String)
    (ps : List Pass)
    (hf : o.regex (chosenFieldPattern c).1 = some ())
    (hsp : o.regex (chosenStructPattern c).1 = some ())
    (hp : o.parseOk = true)
    (hb : buildExecutor c o = .ok ps)
    (h1 : ∀ p, o.scanErr p = none)
    (h2 : ∀ p, o.execErr p = none) :
    (processFileModel c o src).2.filter isPassEv =
      ps.map Ev.scan ++ ps.map Ev.exec := by
  unfold processFileModel
  rw [hf, hsp, hp, hb]
  simp only [Option.isNone_some, Bool.false_eq_true, if_false, reduceIte,
    runScans_ok o h1, runExecs_ok o h2, isErrB]
  by_cases hpr : o.printOk = false
  · simp [hpr, List.filter_append, filter_scan_map, filter_exec_map]
  · simp [hpr, List.filter_append, filter_scan_map, filter_exec_map,
      outputPhase_filter]

/-- Witness for C1 at the all-passes configuration. -/
theorem scans_batched_before_execs_witness :
    (processFileModel cAllPasses oAllOk "x").2.filter isPassEv =
      [Pass.doctor, Pass.fill, Pass.sort, Pass.align].map Ev.scan ++
      [Pass.doctor, Pass.fill, Pass.sort, Pass.align].map Ev.exec :=
  scans_batched_before_execs cAllPasses oAllOk "x"
    [Pass.doctor, Pass.fill, Pass.sort, Pass.align]
    rfl rfl rfl rfl (fun _ => rfl) (fun _ => rfl)

/-! Claim C3. -/

/-- A configuration item of the run is invalid: the chosen field or struct
pattern does not compile, a non-empty fill rule is rejected by newTagFill, or
sorting is enabled and the sort-weight flag does not parse. -/
def configInvalid (c : Config) (o : Oracles) : Prop :=
  o.regex (chosenFieldPattern c).1 = none ∨
  o.regex (chosenStructPattern c).1 = none ∨
  (c.fill ≠ "" ∧ isErrB (o.fillAccept c.fill) = true) ∨
  (c.tagSort = true ∧ isErrB (parseWeights c.tagSortWeight) = true)

/-- A rejected non-empty fill rule makes the executor construction fail. -/
theorem buildExecutor_err_of_fill (c : Config) (o : Oracles)
    (h1 : c.fill ≠ "") (h2 : isErrB (o.fillAccept c.fill) = true) :
    isErrB (buildExecutor c o) = true := by
  obtain ⟨e, he⟩ := exists_error_of_isErrB _ h2
  unfold buildExecutor
  simp [h1, he, isErrB]

/-- A malformed sort-weight flag with sorting enabled makes the executor
construction fail. -/
theorem buildExecutor_err_of_sort (c : Config) (o : Oracles)
    (h1 : c.tagSort = true) (h2 : isErrB (parseWeights c.tagSortWeight) = true) :
    isErrB (buildExecutor c o) = true := by
  obtain ⟨e, he⟩ := exists_error_of_isErrB _ h2
  unfold buildExecutor
  by_cases hf : c.fill = ""
  · simp [hf, h1, he, isErrB]
  · cases hfa : o.fillAccept c.fill with
    | error e2 => simp [hf, hfa, isErrB]
    | ok u => simp [hf, hfa, h1, he, isErrB]

/-- Counterexample for C3 as stated: with sorting disabled, a sort-weight flag
whose only segment is not of the form key=integer (parseWeights rejects it) is
never checked — processFile succeeds, the doctor pass's Scan runs and the
transformed output is written, where the claim demands an error before any
Scan and no output. -/
theorem weight_unchecked_when_sort_disabled :
    isErrB (parseWeights cBadWeight.tagSortWeight) = true ∧
    (processFileModel cBadWeight oAllOk "x").1 = .ok () ∧
    Ev.scan Pass.doctor ∈ (processFileModel cBadWeight oAllOk "x").2 ∧
    Ev.writeOut ∈ (processFileModel cBadWeight oAllOk "x").2 := by
  refine ⟨rfl, rfl, ?_, ?_⟩ <;> decide

/-- C3 (corrected): whenever a configuration item that processFile actually
validates is invalid — the chosen selector pattern fails to compile, a
non-empty fill rule is rejected, or sorting is enabled and a sort-weight
segment is malformed — processFile returns an error and its event trace is
empty: no pass ran Scan or Execute and nothing was written. -/
theorem config_error_aborts (c : Config) (o : Oracles) (src : String)
    (h : configInvalid c o) :
    isErrB (processFileModel c o src).1 = true ∧
    (processFileModel c o src).2 = [] := by
  unfold processFileModel
  rcases h with h | h | h | h
  · simp [h, isErrB]
  · cases hr : o.regex (chosenFieldPattern c).1 with
    | none => simp [hr, isErrB]
    | some u => simp [hr, h, isErrB]
  · cases hr : o.regex (chosenFieldPattern c).1 with
    | none => simp [hr, isErrB]
    | some u =>
      cases hr2 : o.regex (chosenStructPattern c).1 with
      | none => simp [hr, hr2, isErrB]
      | some u2 =>
        by_cases hp : o.parseOk = false
        · simp [hr, hr2, hp, isErrB]
        · have hb := buildExecutor_err_of_fill c o h.1 h.2
          obtain ⟨e, he⟩ := exists_error_of_isErrB _ hb
          simp [hr, hr2, hp, he, isErrB]
  · cases hr : o.regex (chosenFieldPattern c).1 with
    | none => simp [hr, isErrB]
    | some u =>
      cases hr2 : o.regex (chosenStructPattern c).1 with
      | none => simp [hr, hr2, isErrB]
      | some u2 =>
        by_cases hp : o.parseOk = false
        · simp [hr, hr2, hp, isErrB]
        · have hb := buildExecutor_err_of_sort c o h.1 h.2
          obtain ⟨e, he⟩ := exists_error_of_isErrB _ hb
          simp [hr, hr2, hp, he, isErrB]

/-- Witness for C3 at a configuration with sorting enabled and a malformed
weight segment. -/
theorem config_error_aborts_witness :
    isErrB (processFileModel cBadWeightSortOn oAllOk "s").1 = true ∧
    (processFileModel cBadWeightSortOn oAllOk "s").2 = [] :=
  config_error_aborts cBadWeightSortOn oAllOk "s"
    (Or.inr (Or.inr (Or.inr ⟨rfl, rfl⟩)))

/-! Claim C7. -/

/-- C7 (confirmed): in diff mode, when the passes changed the file content and
the external diff subprocess fails, processFile returns the computing-diff
error for that file immediately — the diff is invoked exactly once (no retry)
and no output data is written for the file. -/
theorem diff_failure_aborts_file (c : Config) (o : Oracles) (src : String)
    (ps : List Pass) (msg : String)
    (hf : o.regex (chosenFieldPattern c).1 = some ())
    (hsp : o.regex (chosenStructPattern c).1 = some ())
    (hp : o.parseOk = true)
    (hb : buildExecutor c o = .ok ps)
    (h1 : ∀ p, o.scanErr p = none)
    (h2 : ∀ p, o.execErr p = none)
    (hpr : o.printOk = true)
    (hd : c.doDiff = true)
    (hch : src ≠ o.res)
    (hdr : o.diffRes = .error msg)
    (hw : c.write = false) :
    (processFileModel c o src).1 = .error ("computing diff: " ++ msg) ∧
    Ev.writeOut ∉ (processFileModel c o src).2 ∧
    (processFileModel c o src).2.count Ev.diffInvoke = 1 := by
  unfold processFileModel
  rw [hf, hsp, hp, hb]
  simp only [Option.isNone_some, Bool.false_eq_true, if_false, reduceIte,
    runScans_ok o h1, runExecs_ok o h2, isErrB, hpr]
  unfold outputPhase
  rw [if_neg hch]
  simp only [hd, hw, Bool.false_and, Bool.false_eq_true, if_false, reduceIte, hdr]
  simp only [Bool.true_eq_false, if_false, List.append_nil]
  refine ⟨trivial, ?_, ?_⟩
  · simp only [List.mem_append]
    push_neg
    refine ⟨⟨not_mem_scan_map Ev.writeOut rfl ps, not_mem_exec_map Ev.writeOut rfl ps⟩, ?_⟩
    by_cases hl : c.list <;> simp [hl]
  · simp only [List.count_append]
    have hcs : (ps.map Ev.scan).count Ev.diffInvoke = 0 :=
      List.count_eq_zero.mpr (not_mem_scan_map Ev.diffInvoke rfl ps)
    have hce : (ps.map Ev.exec).count Ev.diffInvoke = 0 :=
      List.count_eq_zero.mpr (not_mem_exec_map Ev.diffInvoke rfl ps)
    rw [hcs, hce]
    by_cases hl : c.list <;> simp [hl]

/-- Witness for C7 at a concrete diff-mode run whose diff subprocess fails. -/
theorem diff_failure_aborts_file_witness :
    (processFileModel
        ⟨".*", "", ".*", "", "", false, "", "", true, false, false, true⟩
        ⟨fun _ => some (), fun _ => .ok (), true, fun _ => none, fun _ => none,
         true, "res", .ok (), .error "exec failed"⟩ "x").1 =
      .error ("computing diff: " ++ "exec failed") ∧
    Ev.writeOut ∉ (processFileModel
        ⟨".*", "", ".*", "", "", false, "", "", true, false, false, true⟩
        ⟨fun _ => some (), fun _ => .ok (), true, fun _ => none, fun _ => none,
         true, "res", .ok (), .error "exec failed"⟩ "x").2 ∧
    (processFileModel
        ⟨".*", "", ".*", "", "", false, "", "", true, false, false, true⟩
        ⟨fun _ => some (), fun _ => .ok (), true, fun _ => none, fun _ => none,
         true, "res", .ok (), .error "exec failed"⟩ "x").2.count Ev.diffInvoke = 1 :=
  diff_failure_aborts_file _ _ "x" [Pass.doctor, Pass.align] "exec failed"
    rfl rfl rfl rfl (fun _ => rfl) (fun _ => rfl) rfl rfl (by decide) rfl rfl

/-! Claim C5: the tag grammar round trip. -/

/-- A successful value scan consumed exactly the returned value characters
followed by the closing quote. -/
theorem parseVal_sound (l : List Char) :
    ∀ v r, parseVal l = .ok (v, r) → l = v ++ '"' :: r := by
  induction l using parseVal.induct with
  | case1 =>
    intro v r h
    rw [parseVal.eq_def] at h
    simp at h
  | case2 rest2 =>
    intro v r h
    rw [parseVal.eq_def] at h
    simp at h
    obtain ⟨h1, h2⟩ := h
    subst h1
    subst h2
    rfl
  | case3 hne =>
    intro v r h
    rw [parseVal.eq_def] at h
    simp at h
  | case4 c2 rest2 v0 r0 hpv hne ih =>
    intro v r h
    rw [parseVal.eq_def] at h
    simp [hpv] at h
    obtain ⟨h1, h2⟩ := h
    subst h1
    subst h2
    simp [ih _ _ hpv]
  | case5 c2 rest2 e hpv hne ih =>
    intro v r h
    rw [parseVal.eq_def] at h
    simp [hpv] at h
  | case6 c2 rest2 hq hb v0 r0 hpv ih =>
    intro v r h
    rw [parseVal.eq_def] at h
    simp [hq, hb, hpv] at h
    obtain ⟨h1, h2⟩ := h
    subst h1
    subst h2
    simp [ih _ _ hpv]
  | case7 c2 rest2 hq hb e hpv ih =>
    intro v r h
    rw [parseVal.eq_def] at h
    simp [hq, hb, hpv] at h

/-- A successful entry parse consumed exactly the serialized entry. -/
theorem parseEntry_sound (l : List Char) (k v r : List Char)
    (h : parseEntry l = .ok ((k, v), r)) :
    l = k ++ ':' :: '"' :: v ++ '"' :: r := by
  unfold parseEntry at h
  split at h
  · cases h
  · rename_i k1 ks rest2 htk hdw
    cases hpv : parseVal rest2 with
    | error e =>
      rw [hpv] at h
      cases h
    | ok pr =>
      obtain ⟨v0, r0⟩ := pr
      rw [hpv] at h
      dsimp only at h
      by_cases hbc : bracketsClosed v0
      · rw [if_pos hbc] at h
        cases h
        have hl : l = (k1 :: ks) ++ ':' :: '"' :: rest2 := by
          rw [← htk, ← hdw, List.takeWhile_append_dropWhile]
        rw [hl, parseVal_sound rest2 v r hpv]
        simp
      · rw [if_neg hbc] at h
        cases h
  · cases h

/-- Round trip at the level of character lists, for any fuel. -/
theorem parseEntriesF_sound :
    ∀ (n : Nat) (l : List Char) (es : List EntryT),
      parseEntriesF n l = .ok es → serializeEntries es = l := by
  intro n
  induction n with
  | zero =>
    intro l es h
    cases l with
    | nil =>
      simp only [parseEntriesF] at h
      cases h
      rfl
    | cons c l2 =>
      simp only [parseEntriesF] at h
      cases h
  | succ n ih =>
    intro l es h
    cases l with
    | nil =>
      simp only [parseEntriesF] at h
      cases h
      rfl
    | cons c l2 =>
      simp only [parseEntriesF] at h
      cases hpe : parseEntry (c :: l2) with
      | error e =>
        simp only [hpe] at h
        cases h
      | ok pr =>
        obtain ⟨⟨k, v⟩, r⟩ := pr
        have hl : c :: l2 = k ++ ':' :: '"' :: v ++ '"' :: r :=
          parseEntry_sound _ _ _ _ hpe
        rw [hpe] at h
        dsimp only at h
        split at h
        · cases h
          rw [hl]
          simp [serializeEntries, serializeEntry]
        · split at h
          · cases h
          · rename_i c3 r3
            cases hrec : parseEntriesF n (c3 :: r3) with
            | error e2 =>
              rw [hrec] at h
              cases h
            | ok es2 =>
              rw [hrec] at h
              cases h
              have hs2 : serializeEntries es2 = c3 :: r3 := ih _ _ hrec
              cases es2 with
              | nil => simp [serializeEntries] at hs2
              | cons e2 es3 =>
                rw [hl]
                simp [serializeEntries, serializeEntry, hs2]
        · cases h

/-- C5 (confirmed): serializing the entry list produced by a successful parse
of a tag string yields the string back exactly; the grammar accepts exactly
one separating space between entries and no trailing space, so the round trip
is the identity on well-formed input. -/
theorem parse_serialize_roundtrip (t : String) (es : List EntryT)
    (h : parseTag t = .ok es) : serializeTag es = t := by
  have hs := parseEntriesF_sound t.data.length t.data es h
  unfold serializeTag
  cases t with
  | mk d =>
    simp only [String.data] at hs
    rw [hs]

/-- Witness for C5 at a concrete two-entry tag. -/
theorem parse_serialize_roundtrip_witness :
    serializeTag [("json".data, "name".data), ("yaml".data, "a,b".data)] =
      "json:\"name\" yaml:\"a,b\"" :=
  parse_serialize_roundtrip "json:\"name\" yaml:\"a,b\""
    [("json".data, "name".data), ("yaml".data, "a,b".data)] rfl

/-! Claim C4: the doctor pass never aborts on a per-field data error. -/

/-- The doctor scan is compositional: the edits and diagnostics of a
concatenation are the concatenated edits and diagnostics. -/
theorem doctorScan_append (xs ys : List GoField) :
    doctorScan (xs ++ ys) =
      ⟨(doctorScan xs).edits ++ (doctorScan ys).edits,
       (doctorScan xs).diags ++ (doctorScan ys).diags⟩ := by
  induction xs with
  | nil => simp [doctorScan]
  | cons f fs ih =>
    simp only [List.cons_append]
    rw [doctorScan, doctorScan]
    cases hp : parseTag f.tag with
    | ok es => simp [ih]
    | error e => cases e <;> simp [ih]

/-- C4 (confirmed): a field whose tag fails to parse never aborts the doctor
scan — the scan is total, every other field before and after it is processed
exactly as it would be on its own (same edits and diagnostics, in order), and
an invalid tag contributes a diagnostic naming the field. -/
theorem doctor_continues_on_field_error (a b : List GoField) (f : GoField)
    (e : TagErr) (h : parseTag f.tag = .error e) :
    doctorScan (a ++ f :: b) =
      ⟨(doctorScan a).edits ++ (doctorScan [f]).edits ++ (doctorScan b).edits,
       (doctorScan a).diags ++ (doctorScan [f]).diags ++ (doctorScan b).diags⟩ ∧
    (e = TagErr.invalidTag →
      (f.name, TagErr.invalidTag) ∈ (doctorScan (a ++ f :: b)).diags) := by
  have hfb : f :: b = [f] ++ b := rfl
  constructor
  · rw [doctorScan_append, hfb, doctorScan_append]
    simp
  · intro he
    subst he
    rw [doctorScan_append, hfb, doctorScan_append]
    have hone : doctorScan [f] = ⟨[], [(f.name, TagErr.invalidTag)]⟩ := by
      rw [doctorScan, h]
      rfl
    simp [hone]

/-- Witness for C4: a field with an invalid tag between two well-formed
fields is reported and its neighbours are processed normally. -/
theorem doctor_continues_on_field_error_witness :
    doctorScan [⟨"A", "json:\"a\""⟩, ⟨"B", "json"⟩, ⟨"C", "yaml:\"c\""⟩] =
      ⟨(doctorScan [⟨"A", "json:\"a\""⟩]).edits ++
         (doctorScan [⟨"B", "json"⟩]).edits ++
         (doctorScan [⟨"C", "yaml:\"c\""⟩]).edits,
       (doctorScan [⟨"A", "json:\"a\""⟩]).diags ++
         (doctorScan [⟨"B", "json"⟩]).diags ++
         (doctorScan [⟨"C", "yaml:\"c\""⟩]).diags⟩ ∧
    ("B", TagErr.invalidTag) ∈
      (doctorScan [⟨"A", "json:\"a\""⟩, ⟨"B", "json"⟩, ⟨"C", "yaml:\"c\""⟩]).diags :=
  ⟨(doctor_continues_on_field_error [⟨"A", "json:\"a\""⟩] [⟨"C", "yaml:\"c\""⟩]
      ⟨"B", "json"⟩ TagErr.invalidTag rfl).1,
   (doctor_continues_on_field_error [⟨"A", "json:\"a\""⟩] [⟨"C", "yaml:\"c\""⟩]
      ⟨"B", "json"⟩ TagErr.invalidTag rfl).2 rfl⟩

/-! Claim C6: the frame condition of the printing contract. -/

/-- Applying one edit changes no text segment. -/
theorem applyEdit_textOf (segs : List Seg) (e : Nat × String) :
    (applyEdit segs e).map textOf = segs.map textOf := by
  induction segs with
  | nil => rfl
  | cons s ss ih =>
    cases s with
    | text t => simpa [applyEdit, textOf] using ih
    | tag i lit =>
      by_cases hi : i = e.1 <;> simpa [applyEdit, textOf, hi] using ih

/-- C6 (confirmed): pending edits replace only tag-literal segments — every
text segment of the source (comments, unrelated whitespace, code structure)
is reproduced unchanged in the edited segment list — and with no edits at all
the rendered output equals the rendered input exactly. -/
theorem edits_preserve_nontag_segments (segs : List Seg) (es : List (Nat × String)) :
    (applyEdits segs es).map textOf = segs.map textOf ∧
    applyEdits segs [] = segs ∧
    render (applyEdits segs []) = render segs := by
  refine ⟨?_, rfl, rfl⟩
  induction es generalizing segs with
  | nil => rfl
  | cons e es ih =>
    have hstep : applyEdits segs (e :: es) = applyEdits (applyEdit segs e) es := rfl
    rw [hstep, ih (applyEdit segs e), applyEdit_textOf]

end Tagfmt
